import Mathlib

/-!
Verification of the natural-language specification of the maestral
bidirectional sync core (src/maestral/sync.py) against a shallow embedding
of its code in Lean 4.

Modelling conventions, stated once here and referenced below:

* Dropbox paths are modelled by their segment lists (`DbxPath`); the
  concrete path string is recovered by `renderPath`, which prefixes every
  segment with a slash.  All string-level operations of the source
  (`str.startswith`, `str.lower`) are modelled on the rendered string or
  segment-wise, as noted at each definition.
* Wall-clock timestamps (`float` in the source) enter the code only through
  order comparisons and `max`; they are modelled by `Rat`.
* Python dictionaries that the code reads and writes pointwise are modelled
  extensionally as functions into `Option`; deleting a key stores `none`.
* Filesystem and network interactions (`os.stat`, hashing, the Dropbox
  client) are passed in as explicit oracle parameters, so every function
  below is a pure function of its state and its oracles.
-/

/-- A Dropbox path, as its list of path segments ("/a/b.txt" is
`["a", "b.txt"]`; the root "/" is `[]`). -/
abbrev DbxPath := List String

/-- Python `str.lower`, character by character (ASCII case folding suffices
for the paths used here). -/
def lowerStr (s : String) : String :=
  String.mk (s.data.map Char.toLower)

/-- Lowercasing a path, segment by segment.  Equals Python `path.lower()` on
the rendered string, since `/` is unaffected by case folding. -/
def lowerPath (p : DbxPath) : DbxPath :=
  p.map lowerStr

/-- The concrete path string of a segment list: `renderPath ["a", "b"]` is
"/a/b" and `renderPath []` is "" (only non-root paths are ever rendered). -/
def renderPath (p : DbxPath) : String :=
  p.foldl (fun acc s => acc ++ "/" ++ s) ""

/-- Python `s.startswith(pre)`. -/
def pyStartswith (s pre : String) : Bool :=
  pre.data.isPrefixOf s.data

/-- Modelled from the spec: `is_child(sub, parent)` of `maestral.utils.path`
(absent from src/) is "true iff `sub` lies strictly beneath `parent`"
(spec 4.2): `sub` extends `parent` by a slash and a nonempty remainder. -/
def is_child (path parent : String) : Bool :=
  pyStartswith path (parent ++ "/") && path != parent ++ "/"

/-- The revision index `UpDownSync._rev_dict_cache` (sync.py 368): a mapping
from lowercase Dropbox path to rev string, modelled extensionally; a key
maps to `none` when absent from the dictionary. -/
abbrev RevIndex := DbxPath → Option String

/-- The empty revision index. -/
def revEmptyIndex : RevIndex := fun _ => none

/-- Python dictionary assignment `d[k] = v`, pointwise. -/
def idxInsert (idx : RevIndex) (k : DbxPath) (v : String) : RevIndex :=
  fun q => if q = k then some v else idx q

/-- The parent-materialization loop of `UpDownSync.set_local_rev`
(sync.py 569-573):

    dirname = osp.dirname(dbx_path)
    while dirname != '/':
        self._rev_dict_cache[dirname] = 'folder'
        dirname = osp.dirname(dirname)

On segment lists `osp.dirname` is `List.dropLast`, and the loop guard
`dirname != '/'` is `segs != []`.  The loop runs exactly `dn.length` times
(each `dropLast` removes one segment), so the recursion is driven by that
count; `dn` is the current value of `dirname`. -/
def setParentRevsAux : Nat → RevIndex → DbxPath → RevIndex
  | 0, idx, _ => idx
  | Nat.succ n, idx, dn => setParentRevsAux n (idxInsert idx dn "folder") dn.dropLast

/-- The parent-materialization loop, entered at `dirname = osp.dirname(p)`:
see `setParentRevsAux`. -/
def setParentRevs (idx : RevIndex) (dn : DbxPath) : RevIndex :=
  setParentRevsAux dn.length idx dn

/-- `UpDownSync.set_local_rev` (sync.py 546-576).  The early return when the
rev is unchanged, the removal of every key on which the rendered path test
`path.startswith(dbx_path)` fires when `rev` is `None` (sync.py 561-565),
and the insertion plus parent materialization otherwise are translated
branch for branch.  The `_save_rev_dict_to_file` persistence call touches
no modelled state. -/
def set_local_rev (idx : RevIndex) (dbxPath : DbxPath) (rev : Option String) : RevIndex :=
  let p := lowerPath dbxPath
  if rev = idx p then idx
  else
    match rev with
    | none => fun q => if pyStartswith (renderPath q) (renderPath p) then none else idx q
    | some r => setParentRevs (idxInsert idx p r) p.dropLast

/-- `UpDownSync.get_local_rev` (sync.py 531-544). -/
def get_local_rev (idx : RevIndex) (dbxPath : DbxPath) : Option String :=
  idx (lowerPath dbxPath)

/-- `UpDownSync.clear_rev_index` (sync.py 578-581). -/
def clear_rev_index : RevIndex := fun _ => none

/-- One operation on the revision index, for stating invariants over
operation sequences. -/
inductive RevOp where
  | set (p : DbxPath) (rev : Option String)
  | clear
deriving Repr

/-- Apply one `RevOp`. -/
def applyRevOp (idx : RevIndex) (op : RevOp) : RevIndex :=
  match op with
  | .set p rev => set_local_rev idx p rev
  | .clear => clear_rev_index

/-- Apply a sequence of `RevOp`s from left to right. -/
def applyRevOps (idx : RevIndex) (ops : List RevOp) : RevIndex :=
  ops.foldl applyRevOp idx

/-- Dropbox metadata for one remote entry, as consumed by
`check_download_conflict` (sync.py 1698-1759): `FileMetadata` carries a rev
and a content hash, `FolderMetadata` and `DeletedMetadata` only a path.
`pathLower` is the server-lowercased path `md.path_lower`. -/
inductive RemoteMeta where
  | file (pathLower : DbxPath) (rev : String) (contentHash : String)
  | folder (pathLower : DbxPath)
  | deleted (pathLower : DbxPath)
deriving DecidableEq, Repr

/-- `md.path_lower` of a metadata entry. -/
def RemoteMeta.pathLower : RemoteMeta → DbxPath
  | .file p _ _ => p
  | .folder p => p
  | .deleted p => p

/-- The `(remote_rev, remote_hash)` computation of check_download_conflict
(sync.py 1711-1719): rev is the file rev, the sentinel "folder", or None. -/
def remoteRevOf : RemoteMeta → Option String
  | .file _ rev _ => some rev
  | .folder _ => some "folder"
  | .deleted _ => none

/-- Remote content hash: file hash, "folder" for folders, None for deletions
(sync.py 1711-1719). -/
def remoteHashOf : RemoteMeta → Option String
  | .file _ _ h => some h
  | .folder _ => some "folder"
  | .deleted _ => none

/-- Python truthiness of an optional string: `not remote_rev` is true for
`None` and for the empty string. -/
def pyFalsyStr (o : Option String) : Bool :=
  match o with
  | none => true
  | some s => s.isEmpty

/-- The `Conflict` IntEnum (sync.py 64-68).  The source assigns
`RemoteNewer = 0`, `Conflict = 1`, `Identical = 2` and
`LocalNewerOrIdentical = 2`; an IntEnum member is its integer value, so the
four names denote the Nat values below, the last two being aliases exactly
as in the source. -/
def Conflict.RemoteNewer : Nat := 0

/-- `Conflict.Conflict = 1` (sync.py 66). -/
def Conflict.Conflict : Nat := 1

/-- `Conflict.Identical = 2` (sync.py 67). -/
def Conflict.Identical : Nat := 2

/-- `Conflict.LocalNewerOrIdentical = 2` (sync.py 68). -/
def Conflict.LocalNewerOrIdentical : Nat := 2

/-- The parts of `UpDownSync`'s persistent sync state read by the download
path: the revision index, the global `last_sync` timestamp
(state key sync.lastsync) and the per-path map `_last_sync_for_path`
(sync.py 370), both modelled with `Rat` timestamps. -/
structure SyncSt where
  revIndex : RevIndex
  lastSync : Rat
  lastSyncForPath : DbxPath → Option Rat

/-- `UpDownSync.get_last_sync_for_path` (sync.py 430-433):
`max(self._last_sync_for_path.get(dbx_path.lower(), 0.0), self.last_sync)`. -/
def get_last_sync_for_path (st : SyncSt) (dbxPath : DbxPath) : Rat :=
  max ((st.lastSyncForPath (lowerPath dbxPath)).getD 0) st.lastSync

/-- `UpDownSync.check_download_conflict` (sync.py 1698-1759), returning the
verdict and the updated state (the `Identical` branch records the remote
rev through `set_local_rev`, sync.py 1754).  The oracles stand for the
filesystem reads: `ctime` is `get_ctime(self.to_local_path(md.path_display))`
(sync.py 2541-2562, -1.0 when nothing exists at the path) and `localHash`
is `get_local_hash` of the same local path (sync.py 2511-2538, `None` when
nothing exists, "folder" for a directory), both keyed here by the Dropbox
path.  The tautological `elif remote_rev != local_rev` (sync.py 1731) is
the else branch. -/
def check_download_conflict (ctime : DbxPath → Rat) (localHash : DbxPath → Option String)
    (st : SyncSt) (md : RemoteMeta) : Nat × SyncSt :=
  let remoteRev := remoteRevOf md
  let remoteHash := remoteHashOf md
  let dbxPath := md.pathLower
  let localRev := get_local_rev st.revIndex dbxPath
  if remoteRev = localRev then
    (Conflict.LocalNewerOrIdentical, st)
  else if ctime dbxPath ≤ get_last_sync_for_path st dbxPath then
    (Conflict.RemoteNewer, st)
  else if pyFalsyStr remoteRev then
    (Conflict.LocalNewerOrIdentical, st)
  else if remoteHash = localHash dbxPath then
    (Conflict.Identical, { st with revIndex := set_local_rev st.revIndex dbxPath remoteRev })
  else
    (Conflict.Conflict, st)

/-- The conflict-rule cascade exactly as the spec words it (spec 4.8, claim
C5): equal revs, then the ctime test against `last_sync_for_path`, then
remote deletion, then hash equality (recording the remote rev), then
conflict.  Written from the spec's words, to be compared with
`check_download_conflict`. -/
def conflictSpecCascade (ctime : DbxPath → Rat) (localHash : DbxPath → Option String)
    (st : SyncSt) (md : RemoteMeta) : Nat × SyncSt :=
  let dbxPath := md.pathLower
  if remoteRevOf md = get_local_rev st.revIndex dbxPath then
    (Conflict.LocalNewerOrIdentical, st)
  else if ctime dbxPath ≤ get_last_sync_for_path st dbxPath then
    (Conflict.RemoteNewer, st)
  else if md matches RemoteMeta.deleted _ then
    (Conflict.LocalNewerOrIdentical, st)
  else if localHash dbxPath = remoteHashOf md then
    (Conflict.Identical, { st with revIndex := set_local_rev st.revIndex dbxPath (remoteRevOf md) })
  else
    (Conflict.Conflict, st)

/-- Well-formed remote metadata: Dropbox file revs are nonempty strings
(the code distinguishes deletions from files by rev truthiness,
sync.py 1746). -/
def mdWellFormed : RemoteMeta → Prop
  | .file _ rev _ => rev ≠ ""
  | _ => True

instance : DecidablePred mdWellFormed := by
  intro md
  cases md <;> simp only [mdWellFormed] <;> infer_instance

/-- The watchdog event types that reach the sync engine
(EVENT_TYPE_CREATED/DELETED/MODIFIED/MOVED, sync.py 29-30). -/
inductive EvtKind where
  | created
  | deleted
  | modified
  | moved
deriving DecidableEq, Repr

/-- A watchdog filesystem event: event type, `is_directory`, `src_path`
and, for moved events, `dest_path` (other events carry `dest = ""`,
matching watchdog events that have no dest_path attribute).  Equality is
field-wise, as watchdog compares events by their key tuple. -/
structure FsEvent where
  kind : EvtKind
  isDir : Bool
  src : String
  dest : String
deriving DecidableEq, Repr

/-- watchdog `FileCreatedEvent(path)`. -/
def fileCreatedEvt (p : String) : FsEvent := ⟨.created, false, p, ""⟩

/-- watchdog `DirCreatedEvent(path)`. -/
def dirCreatedEvt (p : String) : FsEvent := ⟨.created, true, p, ""⟩

/-- watchdog `FileDeletedEvent(path)`. -/
def fileDeletedEvt (p : String) : FsEvent := ⟨.deleted, false, p, ""⟩

/-- watchdog `DirDeletedEvent(path)`. -/
def dirDeletedEvt (p : String) : FsEvent := ⟨.deleted, true, p, ""⟩

/-- watchdog `FileModifiedEvent(path)`. -/
def fileModifiedEvt (p : String) : FsEvent := ⟨.modified, false, p, ""⟩

/-- watchdog `DirModifiedEvent(path)`. -/
def dirModifiedEvt (p : String) : FsEvent := ⟨.modified, true, p, ""⟩

/-- Python `next(iter(i for i, e in enumerate(h) if pred(e)), -1)`
(sync.py 1085-1086): index of the first event satisfying `pred`, or -1. -/
def pyFirstIdx (h : List FsEvent) (pred : FsEvent → Bool) : Int :=
  match h.findIdx? pred with
  | some i => (i : Int)
  | none => -1

/-- Python `h[1].is_directory` for the per-path histories (sync.py 1097);
reached only for histories of length at least two, where it is total. -/
def sndIsDir (h : List FsEvent) : Bool :=
  match h with
  | _ :: e1 :: _ => e1.isDir
  | _ => false

/-- The per-path history reduction of `UpDownSync._clean_local_events`
(sync.py 1064-1102), translated statement by statement for one history `h`
(all events of one `src_path`).  Note the source's branch structure: the
first test `n_created > n_deleted` is an independent `if`, and the `else`
(sync.py 1083) belongs to the second test `n_created < n_deleted`, so for
`n_created > n_deleted` both the Created append and the else branch run.
The Python appends of the first `if` happen before those of the
second `if`/`else`, hence the list append below. -/
def reduceHistory (h : List FsEvent) : List FsEvent :=
  if h.length = 1 then h
  else
    match h with
    | [] => []
    | e0 :: _ =>
      let path := e0.src
      let last := h.getLast?.getD e0
      let nCreated := (h.filter (fun e => e.kind = EvtKind.created)).length
      let nDeleted := (h.filter (fun e => e.kind = EvtKind.deleted)).length
      let part1 :=
        if nCreated > nDeleted then
          [if last.isDir then dirCreatedEvt path else fileCreatedEvt path]
        else []
      let part2 :=
        if nCreated < nDeleted then
          [if e0.isDir then dirDeletedEvt path else fileDeletedEvt path]
        else
          let firstCreatedIdx := pyFirstIdx h (fun e => e.kind = EvtKind.created)
          let firstDeletedIdx := pyFirstIdx h (fun e => e.kind = EvtKind.deleted)
          if nCreated = 0 ∨ firstDeletedIdx < firstCreatedIdx then
            if e0.isDir && last.isDir then [dirModifiedEvt path]
            else if !e0.isDir && !last.isDir then [fileModifiedEvt path]
            else if e0.isDir then [dirDeletedEvt path, fileCreatedEvt path]
            else if sndIsDir h then [fileDeletedEvt path, dirCreatedEvt path]
            else []
          else []
      part1 ++ part2

/-- `UpDownSync._clean_local_events` (sync.py 1018-1104).  `shouldSplit`
stands for `self._should_split_excluded` (sync.py 787-798), which reads
the exclusion and mignore state; the claims hold that state fixed, so it
enters as a parameter.  Python iterates `unique_paths` as a set, whose
order is unspecified; the embedding fixes first-occurrence order
(`eraseDups`), and no claim proved here depends on that order. -/
def cleanLocalEvents (shouldSplit : FsEvent → Bool) (events : List FsEvent) : List FsEvent :=
  let allSrcPaths := events.map (·.src)
  let allDestPaths := (events.filter (fun e => e.kind = EvtKind.moved)).map (·.dest)
  let allPaths := allSrcPaths ++ allDestPaths
  let newEvents := events.flatMap (fun e =>
    if e.kind = EvtKind.moved then
      let related := allPaths.filter (fun p => p = e.src ∨ p = e.dest)
      if related.length > 2 ∨ shouldSplit e then
        [(if e.isDir then dirDeletedEvt e.src else fileDeletedEvt e.src),
         (if e.isDir then dirCreatedEvt e.dest else fileCreatedEvt e.dest)]
      else [e]
    else [e])
  let uniquePaths := (newEvents.map (·.src)).eraseDups
  let histories := uniquePaths.map (fun path => newEvents.filter (fun e => e.src = path))
  histories.flatMap reduceHistory

/-- `UpDownSync._list_diff` (sync.py 1169-1179): subtract `l2` from `l1`
preserving the order of `l1`. -/
def listDiff (l1 l2 : List FsEvent) : List FsEvent :=
  l1.filter (fun item => ¬ item ∈ l2)

/-- `UpDownSync._is_dir_moved` (sync.py 1181-1185). -/
def isDirMoved (x : FsEvent) : Bool :=
  x.kind = EvtKind.moved && x.isDir

/-- `UpDownSync._is_moved_child` (sync.py 1187-1193). -/
def isMovedChild (x parent : FsEvent) : Bool :=
  x.kind = EvtKind.moved && is_child x.src parent.src && is_child x.dest parent.dest

/-- `UpDownSync._is_dir_deleted` (sync.py 1195-1199). -/
def isDirDeleted (x : FsEvent) : Bool :=
  x.kind = EvtKind.deleted && x.isDir

/-- `UpDownSync._is_deleted_child` (sync.py 1201-1205). -/
def isDeletedChild (x parent : FsEvent) : Bool :=
  x.kind = EvtKind.deleted && is_child x.src parent.src

/-- The event-normalization section of `UpDownSync.wait_for_local_changes`
(sync.py 940-968): `_clean_local_events`, removal of DirModified events,
collapse of moved folders' child moves, collapse of deleted folders' child
deletions.  The queue draining that precedes it is I/O and outside the
modelled state. -/
def normalizeLocalEvents (shouldSplit : FsEvent → Bool) (events : List FsEvent) : List FsEvent :=
  let events1 := cleanLocalEvents shouldSplit events
  let events2 := events1.filter (fun e => ¬ (e.kind = EvtKind.modified ∧ e.isDir = true))
  let dirMovedEvents := events2.filter isDirMoved
  let events3 :=
    if dirMovedEvents.length > 0 then
      let childMoveEvents := dirMovedEvents.flatMap
        (fun parent => events2.filter (fun x => isMovedChild x parent))
      listDiff events2 childMoveEvents
    else events2
  let dirDeletedEvents := events3.filter isDirDeleted
  if dirDeletedEvents.length > 0 then
    let childDeletedEvents := dirDeletedEvents.flatMap
      (fun parent => events3.filter (fun x => isDeletedChild x parent))
    listDiff events3 childDeletedEvents
  else events3

/-- Python `path.count('/')`, the sort key of sync.py 1137-1138 and
1662-1663. -/
def countSlash (s : String) : Nat :=
  s.data.count '/'

/-- Stable insertion of `x` into `l`: `x` goes after every element `y` with
`le y x`, matching the stability of Python `list.sort`. -/
def insertStableBy (le : FsEvent → FsEvent → Bool) (x : FsEvent) : List FsEvent → List FsEvent
  | [] => [x]
  | y :: ys => if le y x then y :: insertStableBy le x ys else x :: y :: ys

/-- Stable sort (insertion sort), modelling Python `list.sort(key=...)`;
the claims below do not depend on the output order. -/
def sortStableBy (le : FsEvent → FsEvent → Bool) (l : List FsEvent) : List FsEvent :=
  l.foldl (fun acc x => insertStableBy le x acc) []

/-- `UpDownSync._separate_local_event_types` (sync.py 1106-1121):
(folders, files, deleted). -/
def separateLocalEventTypes (events : List FsEvent) :
    List FsEvent × List FsEvent × List FsEvent :=
  (events.filter (fun e => e.isDir && !(e.kind = EvtKind.deleted)),
   events.filter (fun e => !e.isDir && !(e.kind = EvtKind.deleted)),
   events.filter (fun e => e.kind = EvtKind.deleted))

/-- `UpDownSync._filter_excluded_changes_local` (sync.py 974-1016):
(events_filtered, events_excluded).  The three predicates stand for
`is_excluded`, `is_excluded_by_user` and `is_mignore` applied to the
event's Dropbox path (the `to_dbx_path` conversion is absorbed into the
parameters); the clear-sync-error and notification side effects of the
excluded branch touch no modelled state. -/
def filterExcludedChangesLocal (excl exclUser mignore : FsEvent → Bool)
    (events : List FsEvent) : List FsEvent × List FsEvent :=
  (events.filter (fun e => !excl e && !exclUser e && !mignore e),
   events.filter (fun e => excl e || exclUser e || mignore e))

/-- The file events of a batch after exclusion filtering and type
separation, i.e. the events whose `_apply_event` results the source
collects into `success` (sync.py 1154-1164). -/
def uploadFileEventsOf (excl exclUser mignore : FsEvent → Bool)
    (events : List FsEvent) : List FsEvent :=
  (separateLocalEventTypes (filterExcludedChangesLocal excl exclUser mignore events).1).2.1

/-- `UpDownSync.apply_local_changes` (sync.py 1123-1167), returning the new
`last_sync` value.  `ok` is the outcome oracle for `_apply_event`
(sync.py 1207 onward): `true` when the event applies, `false` when
`catch_sync_issues` (sync.py 296-321) catches a SyncError.  The source
applies deleted events and folder events first and DISCARDS their return
values (sync.py 1146-1150); only the file events' results are collected
into `success` (sync.py 1154-1164), and `last_sync` is assigned
`local_cursor` iff `all(success)` (sync.py 1166-1167).  The thread pool's
completion order is immaterial to `all`. -/
def apply_local_changes (excl exclUser mignore : FsEvent → Bool) (ok : FsEvent → Bool)
    (events : List FsEvent) (localCursor lastSync : Rat) : Rat :=
  let filtered := (filterExcludedChangesLocal excl exclUser mignore events).1
  let parts := separateLocalEventTypes filtered
  let dirEvents := sortStableBy (fun a b => countSlash a.src ≤ countSlash b.src) parts.1
  let fileEvents := parts.2.1
  let deletedEvents := sortStableBy (fun a b => countSlash b.src ≤ countSlash a.src) parts.2.2
  let _resDeleted := deletedEvents.map ok
  let _resDirs := dirEvents.map ok
  let success := fileEvents.map ok
  if success.all (· = true) then localCursor else lastSync

/-- `dropbox.files.ListFolderResult`, as consumed by
`apply_remote_changes`: the entry list and the batch cursor. -/
structure ListFolderRes where
  entries : List RemoteMeta
  cursor : String
deriving DecidableEq, Repr

/-- The value `_create_local_entry` (sync.py 1895-1982) hands back through
its `catch_sync_issues` wrapper: the applied entry's metadata, `True` when
the change was skipped (verdict Identical/LocalNewerOrIdentical), or
`False` when a SyncError was caught. -/
inductive DlOutcome where
  | applied (md : RemoteMeta)
  | skipped
  | failed
deriving DecidableEq, Repr

/-- Python truthiness of a `_create_local_entry` result: metadata and
`True` are truthy, `False` is not. -/
def dlTruthy : DlOutcome → Bool
  | .failed => false
  | _ => true

/-- The `not isinstance(entry, bool)` filter of sync.py 1696: keep only the
metadata results. -/
def dlMeta : DlOutcome → Option RemoteMeta
  | .applied m => some m
  | _ => none

/-- `UpDownSync._separate_remote_entry_types` (sync.py 1837-1852):
(folders, files, deleted), split by metadata constructor. -/
def separateRemoteEntryTypes (entries : List RemoteMeta) :
    List RemoteMeta × List RemoteMeta × List RemoteMeta :=
  (entries.filter (fun e => e matches RemoteMeta.folder _),
   entries.filter (fun e => e matches RemoteMeta.file _ _ _),
   entries.filter (fun e => e matches RemoteMeta.deleted _))

/-- Stable insertion for remote metadata, as `insertStableBy`. -/
def insertStableMetaBy (le : RemoteMeta → RemoteMeta → Bool) (x : RemoteMeta) :
    List RemoteMeta → List RemoteMeta
  | [] => [x]
  | y :: ys => if le y x then y :: insertStableMetaBy le x ys else x :: y :: ys

/-- Stable sort for remote metadata, as `sortStableBy`. -/
def sortStableMetaBy (le : RemoteMeta → RemoteMeta → Bool) (l : List RemoteMeta) :
    List RemoteMeta :=
  l.foldl (fun acc x => insertStableMetaBy le x acc) []

/-- `UpDownSync.filter_excluded_changes_remote` (sync.py 1605-1622),
restricted to the kept half.  The source keeps an entry when
`not is_excluded_by_user(path) or is_excluded(path)` (sync.py 1613-1614);
the two predicates enter as parameters on the lowercased path.  The
discarded half is rebuilt through an unordered set difference and is used
only for excluded-items bookkeeping outside the modelled state. -/
def filterExcludedChangesRemoteKept (exclUser excl : DbxPath → Bool)
    (changes : ListFolderRes) : ListFolderRes :=
  ⟨changes.entries.filter (fun e => !exclUser e.pathLower || excl e.pathLower),
   changes.cursor⟩

/-- `UpDownSync.apply_remote_changes` (sync.py 1624-1696), returning the
pair the source returns (`None` models the `return False` for a falsy
`changes` argument) together with the new `last_cursor`.  `res` is the
outcome oracle for `_create_local_entry`.  Deletions are applied first
(deepest first), then folders (shallowest first), then files; `downloaded`
collects every outcome, `success = all(downloaded)` (sync.py 1691), and —
as written at sync.py 1693-1694 — `last_cursor` is assigned
`changes.cursor` whenever `save_cursor` is true, regardless of `success`.
Queue bookkeeping, excluded-items pruning (sync.py 1650-1655) and progress
logging touch no modelled state. -/
def apply_remote_changes (exclUser excl : DbxPath → Bool) (res : RemoteMeta → DlOutcome)
    (changes : Option ListFolderRes) (saveCursor : Bool) (lastCursor : String) :
    Option (List RemoteMeta × Bool) × String :=
  match changes with
  | none => (none, lastCursor)
  | some ch =>
    let included := filterExcludedChangesRemoteKept exclUser excl ch
    let parts := separateRemoteEntryTypes included.entries
    let folders := sortStableMetaBy
      (fun a b => countSlash (renderPath a.pathLower) ≤ countSlash (renderPath b.pathLower)) parts.1
    let files := parts.2.1
    let deleted := sortStableMetaBy
      (fun a b => countSlash (renderPath b.pathLower) ≤ countSlash (renderPath a.pathLower)) parts.2.2
    let downloaded := deleted.map res ++ folders.map res ++ files.map res
    let success := downloaded.all dlTruthy
    let newCursor := if saveCursor then ch.cursor else lastCursor
    (some (downloaded.filterMap dlMeta, success), newCursor)

/-- `FileEventHandler.is_being_downloaded` (sync.py 113-126): the lowercased
local path equals, or is a child of, the lowercase of some entry of
`queue_downloading`. -/
def is_being_downloaded (queueDownloading : List String) (localPath : String) : Bool :=
  let lp := lowerStr localPath
  queueDownloading.any (fun p => lp = lowerStr p || is_child lp (lowerStr p))

/-- `FileEventHandler.on_any_event` (sync.py 184-209), returning the event
put on `local_file_event_queue` (or `none`) and the updated
`_renamed_items_cache`.  `fsCaseSensitive` is the constant
IS_FS_CASE_SENSITIVE; `renameOracle` stands for
`rename_on_case_conflict` (sync.py 131-182), whose behaviour depends on
the on-disk directory listing: it yields the possibly rewritten event and
the updated rename cache.  The claim verified here fires before that
step. -/
def on_any_event (syncing startup : Bool) (queueDownloading : List String)
    (renamedCache : List String) (fsCaseSensitive : Bool)
    (renameOracle : FsEvent → List String → FsEvent × List String)
    (event : FsEvent) : Option FsEvent × List String :=
  if ¬ (syncing = true ∨ startup = true) then (none, renamedCache)
  else if is_being_downloaded queueDownloading event.src then (none, renamedCache)
  else
    let step := if fsCaseSensitive then renameOracle event renamedCache
                else (event, renamedCache)
    if step.1.src ∈ step.2 then (none, step.2.erase step.1.src)
    else (some step.1, step.2)

/-- The ancestor-presence property of a revision index: every entry's
strict-prefix ancestors (down to but excluding the root, i.e. nonempty
proper segment prefixes) are themselves present in the index. -/
def ancestorsPresent (idx : RevIndex) : Prop :=
  ∀ k, idx k ≠ none → ∀ a, a ≠ [] → a ≠ k → a <+: k → idx a ≠ none

/-- An exclusion/mignore state with nothing excluded: all three predicates
of `_filter_excluded_changes_local` (and `_should_split_excluded`) are
false. -/
def noExclusion : FsEvent → Bool := fun _ => false

/-- An `_apply_event` outcome oracle for which exactly the deleted events
fail with a caught SyncError. -/
def failsOnDeleted : FsEvent → Bool := fun e =>
  if e.kind = EvtKind.deleted then false else true

/-- A concrete revision index: a folder "/foo" with one file "/foo/a.txt",
and an unrelated sibling file "/foobar". -/
def c4ExampleIndex : RevIndex := fun k =>
  if k = ["foo"] then some "folder"
  else if k = ["foo", "a.txt"] then some "r1"
  else if k = ["foobar"] then some "r2"
  else none

/-- A concrete operation sequence: record a rev for the file "/a/b", then
record a (file) rev directly at "/a". -/
def c7ExampleOps : List RevOp :=
  [RevOp.set ["a", "b"] (some "r1"), RevOp.set ["a"] (some "r2")]

/-- A concrete burst: the same file path created twice within one event
window. -/
def c2ExampleEvents : List FsEvent :=
  [fileCreatedEvt "/x", fileCreatedEvt "/x"]

/-- A concrete burst: a path created as a file, then created as a
directory, within one event window. -/
def c8ExampleEvents : List FsEvent :=
  [fileCreatedEvt "/x", dirCreatedEvt "/x"]

theorem renderPath_data_mono {a k : DbxPath} (h : a <+: k) :
    (renderPath a).data <+: (renderPath k).data := by
  obtain ⟨t, rfl⟩ := h
  have haux : ∀ (t : List String) (acc : String),
      acc.data <+: (t.foldl (fun acc s => acc ++ "/" ++ s) acc).data := by
    intro t
    induction t with
    | nil => intro acc; exact List.prefix_refl _
    | cons x xs ih =>
      intro acc
      simp only [List.foldl_cons]
      refine List.IsPrefix.trans ?_ (ih (acc ++ "/" ++ x))
      rw [String.data_append, String.data_append, List.append_assoc]
      exact List.prefix_append _ _
  simpa only [renderPath, List.foldl_append] using haux t (renderPath a)

theorem prefix_dropLast_of_proper {a k : DbxPath} (h : a <+: k) (hne : a ≠ k) :
    a <+: k.dropLast := by
  obtain ⟨t, rfl⟩ := h
  cases t with
  | nil => simp at hne
  | cons y ys =>
    rw [List.dropLast_append_cons]
    exact ⟨(y :: ys).dropLast, rfl⟩

theorem pyStartswith_trans_along_ancestor {p a k : DbxPath} (hpre : a <+: k)
    (hs : pyStartswith (renderPath a) (renderPath p) = true) :
    pyStartswith (renderPath k) (renderPath p) = true := by
  rw [pyStartswith, List.isPrefixOf_iff_prefix] at hs ⊢
  exact hs.trans (renderPath_data_mono hpre)

theorem setParentRevsAux_apply :
    ∀ (n : Nat) (dn : DbxPath) (idx : RevIndex) (k : DbxPath), n = dn.length →
      setParentRevsAux n idx dn k =
        if k ≠ [] ∧ k <+: dn then some "folder" else idx k := by
  intro n
  induction n with
  | zero =>
    intro dn idx k hlen
    have hdn : dn = [] := List.length_eq_zero.mp hlen.symm
    subst hdn
    have : ¬ (k ≠ [] ∧ k <+: ([] : DbxPath)) := by
      rintro ⟨hk, hpre⟩
      exact hk (List.prefix_nil.mp hpre)
    rw [setParentRevsAux, if_neg this]
  | succ n ih =>
    intro dn idx k hlen
    have hdn : dn ≠ [] := by
      intro hnil
      rw [hnil] at hlen
      simp at hlen
    have hdl : n = dn.dropLast.length := by
      rw [List.length_dropLast]
      omega
    rw [setParentRevsAux, ih dn.dropLast (idxInsert idx dn "folder") k hdl]
    by_cases h1 : k ≠ [] ∧ k <+: dn.dropLast
    · rw [if_pos h1, if_pos ⟨h1.1, h1.2.trans (List.dropLast_prefix dn)⟩]
    · rw [if_neg h1]
      by_cases h2 : k = dn
      · subst h2
        rw [idxInsert, if_pos rfl, if_pos ⟨hdn, List.prefix_refl k⟩]
      · rw [idxInsert, if_neg h2]
        have h3 : ¬ (k ≠ [] ∧ k <+: dn) := by
          rintro ⟨hk, hpre⟩
          exact h1 ⟨hk, prefix_dropLast_of_proper hpre h2⟩
        rw [if_neg h3]

theorem setParentRevs_apply (idx : RevIndex) (dn k : DbxPath) :
    setParentRevs idx dn k =
      if k ≠ [] ∧ k <+: dn then some "folder" else idx k :=
  setParentRevsAux_apply dn.length dn idx k rfl

theorem ancestorsPresent_applyRevOp {idx : RevIndex} (hInv : ancestorsPresent idx)
    (op : RevOp) : ancestorsPresent (applyRevOp idx op) := by
  cases op with
  | clear =>
    intro k hk
    exact absurd rfl hk
  | set p rev =>
    intro k hk a ha hak hpre
    simp only [applyRevOp, set_local_rev] at hk ⊢
    by_cases h0 : rev = idx (lowerPath p)
    · rw [if_pos h0] at hk ⊢
      exact hInv k hk a ha hak hpre
    · rw [if_neg h0] at hk ⊢
      cases rev with
      | none =>
        simp only at hk ⊢
        by_cases hsk : pyStartswith (renderPath k) (renderPath (lowerPath p)) = true
        · rw [if_pos hsk] at hk
          exact absurd rfl hk
        · rw [if_neg hsk] at hk
          have hsa : ¬ pyStartswith (renderPath a) (renderPath (lowerPath p)) = true :=
            fun hs => hsk (pyStartswith_trans_along_ancestor hpre hs)
          rw [if_neg hsa]
          exact hInv k hk a ha hak hpre
      | some r =>
        simp only [setParentRevs_apply] at hk ⊢
        by_cases ha1 : a ≠ [] ∧ a <+: (lowerPath p).dropLast
        · rw [if_pos ha1]
          simp
        · rw [if_neg ha1]
          by_cases ha2 : a = lowerPath p
          · rw [idxInsert, if_pos ha2]
            simp
          · rw [idxInsert, if_neg ha2]
            by_cases hk1 : k ≠ [] ∧ k <+: (lowerPath p).dropLast
            · exact absurd ⟨ha, hpre.trans hk1.2⟩ ha1
            · rw [if_neg hk1, idxInsert] at hk
              by_cases hk2 : k = lowerPath p
              · subst hk2
                exact absurd ⟨ha, prefix_dropLast_of_proper hpre hak⟩ ha1
              · rw [if_neg hk2] at hk
                exact hInv k hk a ha hak hpre

theorem ancestorsPresent_applyRevOps :
    ∀ (ops : List RevOp) (idx : RevIndex), ancestorsPresent idx →
      ancestorsPresent (applyRevOps idx ops) := by
  intro ops
  induction ops with
  | nil => intro idx h; exact h
  | cons op ops ih =>
    intro idx h
    simp only [applyRevOps, List.foldl_cons]
    exact ih (applyRevOp idx op) (ancestorsPresent_applyRevOp h op)

/-- C7 (corrected): after any sequence of set_local_rev / clear_rev_index
operations from the empty index, every entry's strict-prefix ancestors are
present in the index; and any set_local_rev call that records a rev and is
not short-circuited by the unchanged-rev early return leaves every
strict-prefix ancestor of its path mapped to the sentinel "folder".  The
stronger claim — that every entry's ancestors always map to "folder" — is
refuted by `c7_folder_invariant_counterexample`. -/
theorem c7_ancestors_present_and_materialized :
    (∀ ops : List RevOp, ancestorsPresent (applyRevOps revEmptyIndex ops))
    ∧ (∀ (idx : RevIndex) (p : DbxPath) (r : String),
        some r ≠ idx (lowerPath p) →
        ∀ a, a ≠ [] → a ≠ lowerPath p → a <+: lowerPath p →
          set_local_rev idx p (some r) a = some "folder") := by
  constructor
  · intro ops
    apply ancestorsPresent_applyRevOps
    intro k hk
    exact absurd rfl hk
  · intro idx p r h0 a ha hap hpre
    simp only [set_local_rev]
    rw [if_neg (fun h => h0 h), setParentRevs_apply,
      if_pos ⟨ha, prefix_dropLast_of_proper hpre hap⟩]

/-- Witness for C7: the theorem applied at concrete inputs — recording a
rev for "/a/b" in the empty index materializes the ancestor "/a", and
after the example operation sequence every present entry's ancestors are
present. -/
theorem c7_ancestors_present_and_materialized_witness :
    (some "r" ≠ revEmptyIndex (lowerPath ["a", "b"])
      ∧ set_local_rev revEmptyIndex ["a", "b"] (some "r") ["a"] = some "folder")
    ∧ (applyRevOps revEmptyIndex c7ExampleOps ["a", "b"] ≠ none
      ∧ applyRevOps revEmptyIndex c7ExampleOps ["a"] ≠ none) :=
  ⟨⟨by decide,
    c7_ancestors_present_and_materialized.2 revEmptyIndex ["a", "b"] "r" (by decide)
      ["a"] (by decide) (by decide) (by decide)⟩,
   ⟨by decide,
    c7_ancestors_present_and_materialized.1 c7ExampleOps ["a", "b"] (by decide)
      ["a"] (by decide) (by decide) (by decide)⟩⟩

/-- C7 counterexample: the claimed invariant "every strict-prefix ancestor
of an indexed path maps to the sentinel folder" fails after the sequence
set_local_rev("/a/b", "r1"); set_local_rev("/a", "r2"): "/a/b" is indexed
but its ancestor "/a" maps to "r2", not "folder". -/
theorem c7_folder_invariant_counterexample :
    applyRevOps revEmptyIndex c7ExampleOps ["a", "b"] = some "r1"
    ∧ (["a"] : DbxPath) ≠ []
    ∧ (["a"] : DbxPath) ≠ ["a", "b"]
    ∧ (["a"] : DbxPath) <+: ["a", "b"]
    ∧ applyRevOps revEmptyIndex c7ExampleOps ["a"] = some "r2"
    ∧ (some "r2" : Option String) ≠ some "folder" := by
  refine ⟨by decide, by decide, by decide, ⟨["b"], rfl⟩, by decide, by decide⟩

/-- C4 (code bug): with "/foo" mapped to the sentinel "folder",
set_local_rev("/foo", None) does clear "/foo"'s own entry and its
descendant "/foo/a.txt", but — because the removal loop tests the raw
string prefix `path.startswith(dbx_path)` (sync.py 564) — it also removes
the sibling "/foobar", which the claim requires to be left unchanged. -/
theorem c4_clear_folder_removes_sibling :
    c4ExampleIndex ["foo"] = some "folder"
    ∧ c4ExampleIndex ["foobar"] = some "r2"
    ∧ set_local_rev c4ExampleIndex ["foo"] none ["foo"] = none
    ∧ set_local_rev c4ExampleIndex ["foo"] none ["foo", "a.txt"] = none
    ∧ set_local_rev c4ExampleIndex ["foo"] none ["foobar"] = none := by
  decide

/-- C1 (code bug): apply_remote_changes with save_cursor=True on a batch
whose single entry fails to download returns success=False, yet assigns
last_cursor the batch cursor "cur2" (sync.py 1693-1694 run regardless of
success), where the claim requires the previous cursor "cur1" to be
kept. -/
theorem c1_cursor_saved_despite_failed_batch :
    apply_remote_changes (fun _ => false) (fun _ => false) (fun _ => DlOutcome.failed)
      (some ⟨[RemoteMeta.file ["a.txt"] "r1" "h1"], "cur2"⟩) true "cur1"
      = (some ([], false), "cur2")
    ∧ ("cur2" : String) ≠ "cur1" := by
  decide

/-- C2 (code bug): for the burst [FileCreated "/x", FileCreated "/x"]
(two creates, zero deletes) _clean_local_events emits BOTH a FileCreated
and a FileModified for "/x" — the `else` at sync.py 1083 binds to the
second `if`, so the modified-branch runs in addition to the created
branch — violating the one-event-per-path guarantee (the two events are
not a delete-then-create kind-change pair). -/
theorem c2_duplicate_events_per_path :
    cleanLocalEvents noExclusion c2ExampleEvents
      = [fileCreatedEvt "/x", fileModifiedEvt "/x"]
    ∧ (cleanLocalEvents noExclusion c2ExampleEvents).map (fun e => e.src)
      = ["/x", "/x"]
    ∧ (cleanLocalEvents noExclusion c2ExampleEvents).map (fun e => e.kind)
      = [EvtKind.created, EvtKind.modified] := by
  decide

/-- C8 (code bug): the normalizer is not idempotent.  For the burst
[FileCreated "/x", DirCreated "/x"] one pass yields the three events
[DirCreated, FileDeleted, DirCreated] for "/x" (the mis-chained else of
sync.py 1083 appends the kind-change pair after the created event), and a
second pass collapses them to [DirCreated] — so normalize(normalize(X))
differs from normalize(X). -/
theorem c8_normalize_not_idempotent :
    normalizeLocalEvents noExclusion c8ExampleEvents
      = [dirCreatedEvt "/x", fileDeletedEvt "/x", dirCreatedEvt "/x"]
    ∧ normalizeLocalEvents noExclusion (normalizeLocalEvents noExclusion c8ExampleEvents)
      = [dirCreatedEvt "/x"]
    ∧ normalizeLocalEvents noExclusion (normalizeLocalEvents noExclusion c8ExampleEvents)
      ≠ normalizeLocalEvents noExclusion c8ExampleEvents := by
  decide

/-- C3 counterexample: the four verdict names are not pairwise distinct —
the source (sync.py 67-68) assigns Identical and LocalNewerOrIdentical the
same IntEnum value 2, so the two are one and the same value. -/
theorem c3_verdicts_not_pairwise_distinct :
    Conflict.Identical = Conflict.LocalNewerOrIdentical := rfl

/-- C3 (corrected): the verdict type has three pairwise-distinct values
RemoteNewer=0, Conflict=1, Identical=2, with LocalNewerOrIdentical an
alias of Identical; the conflict check is total — every combination of
remote metadata, index, ctime and hash state yields exactly one of the
three values. -/
theorem c3_three_distinct_verdicts_and_total :
    (Conflict.RemoteNewer ≠ Conflict.Conflict
      ∧ Conflict.RemoteNewer ≠ Conflict.Identical
      ∧ Conflict.Conflict ≠ Conflict.Identical)
    ∧ Conflict.LocalNewerOrIdentical = Conflict.Identical
    ∧ ∀ (ctime : DbxPath → Rat) (localHash : DbxPath → Option String)
        (st : SyncSt) (md : RemoteMeta),
        (check_download_conflict ctime localHash st md).1 = Conflict.RemoteNewer
        ∨ (check_download_conflict ctime localHash st md).1 = Conflict.Conflict
        ∨ (check_download_conflict ctime localHash st md).1 = Conflict.Identical := by
  refine ⟨⟨by decide, by decide, by decide⟩, rfl, ?_⟩
  intro ctime localHash st md
  unfold check_download_conflict
  dsimp only
  split_ifs <;>
    simp [Conflict.RemoteNewer, Conflict.Conflict, Conflict.Identical,
      Conflict.LocalNewerOrIdentical]

/-- C10 (confirmed): get_last_sync_for_path returns the maximum of the
stored per-path timestamp (0.0 when absent) and the global last_sync, and
is therefore never smaller than the global last_sync. -/
theorem c10_last_sync_for_path_is_max :
    ∀ (st : SyncSt) (p : DbxPath),
      get_last_sync_for_path st p
        = max ((st.lastSyncForPath (lowerPath p)).getD 0) st.lastSync
      ∧ st.lastSync ≤ get_last_sync_for_path st p :=
  fun st p => ⟨rfl, le_max_right _ _⟩

/-- C5 (confirmed): for every remote entry with a well-formed rev,
check_download_conflict evaluates its rules in exactly the claimed order —
equal revs, then the ctime-vs-last_sync_for_path test, then remote
deletion, then content-hash equality (recording the remote rev in the
index), then Conflict — i.e. it coincides with the rule cascade written
from the spec's words. -/
theorem c5_conflict_rules_in_order :
    ∀ (ctime : DbxPath → Rat) (localHash : DbxPath → Option String) (st : SyncSt)
      (md : RemoteMeta), mdWellFormed md →
      check_download_conflict ctime localHash st md
        = conflictSpecCascade ctime localHash st md := by
  intro ctime localHash st md hwf
  cases md with
  | file p rev hsh =>
    have hwf' : rev ≠ "" := hwf
    unfold check_download_conflict conflictSpecCascade
    dsimp only [remoteRevOf, remoteHashOf, RemoteMeta.pathLower]
    by_cases h1 : (some rev : Option String) = get_local_rev st.revIndex p
    · rw [if_pos h1, if_pos h1]
    · rw [if_neg h1, if_neg h1]
      by_cases h2 : ctime p ≤ get_last_sync_for_path st p
      · rw [if_pos h2, if_pos h2]
      · rw [if_neg h2, if_neg h2]
        have hf : ¬ (pyFalsyStr (some rev) = true) := by
          simp only [pyFalsyStr]
          intro hh
          exact hwf' ((String.isEmpty_iff rev).mp hh)
        rw [if_neg hf, if_neg Bool.false_ne_true]
        by_cases h4 : localHash p = some hsh
        · rw [if_pos h4.symm, if_pos h4]
        · rw [if_neg (fun hh => h4 hh.symm), if_neg h4]
  | folder p =>
    unfold check_download_conflict conflictSpecCascade
    dsimp only [remoteRevOf, remoteHashOf, RemoteMeta.pathLower]
    by_cases h1 : (some "folder" : Option String) = get_local_rev st.revIndex p
    · rw [if_pos h1, if_pos h1]
    · rw [if_neg h1, if_neg h1]
      by_cases h2 : ctime p ≤ get_last_sync_for_path st p
      · rw [if_pos h2, if_pos h2]
      · rw [if_neg h2, if_neg h2]
        have hf : ¬ (pyFalsyStr (some "folder") = true) := by decide
        rw [if_neg hf, if_neg Bool.false_ne_true]
        by_cases h4 : localHash p = some "folder"
        · rw [if_pos h4.symm, if_pos h4]
        · rw [if_neg (fun hh => h4 hh.symm), if_neg h4]
  | deleted p =>
    unfold check_download_conflict conflictSpecCascade
    dsimp only [remoteRevOf, remoteHashOf, RemoteMeta.pathLower]
    by_cases h1 : (none : Option String) = get_local_rev st.revIndex p
    · rw [if_pos h1, if_pos h1]
    · rw [if_neg h1, if_neg h1]
      by_cases h2 : ctime p ≤ get_last_sync_for_path st p
      · rw [if_pos h2, if_pos h2]
      · rw [if_neg h2, if_neg h2]
        have ht : pyFalsyStr (none : Option String) = true := rfl
        rw [if_pos ht, if_pos rfl]

/-- Witness for C5: the theorem applied to a concrete file entry with a
conflicting state — both the source function and the spec cascade yield
the same verdict there. -/
theorem c5_conflict_rules_in_order_witness :
    mdWellFormed (RemoteMeta.file ["a.txt"] "r1" "h1")
    ∧ check_download_conflict (fun _ => 5) (fun _ => none)
        ⟨revEmptyIndex, 1, fun _ => none⟩ (RemoteMeta.file ["a.txt"] "r1" "h1")
      = conflictSpecCascade (fun _ => 5) (fun _ => none)
        ⟨revEmptyIndex, 1, fun _ => none⟩ (RemoteMeta.file ["a.txt"] "r1" "h1") :=
  ⟨by decide,
   c5_conflict_rules_in_order (fun _ => 5) (fun _ => none)
     ⟨revEmptyIndex, 1, fun _ => none⟩ (RemoteMeta.file ["a.txt"] "r1" "h1") (by decide)⟩

theorem apply_local_changes_eq_ite (excl exclUser mignore ok : FsEvent → Bool)
    (events : List FsEvent) (localCursor lastSync : Rat) :
    apply_local_changes excl exclUser mignore ok events localCursor lastSync
      = if ((uploadFileEventsOf excl exclUser mignore events).map ok).all (· = true)
        then localCursor else lastSync := rfl

/-- C6 (corrected): apply_local_changes advances last_sync to local_cursor
exactly when every FILE event of the filtered batch applies successfully;
failures of deleted events and directory events are invisible to this
decision (the source discards their results, sync.py 1146-1150, and
collects only the file events' outcomes into `success`,
sync.py 1154-1166).  Conjuncts: all file events succeed ⇒ cursor saved;
some file event fails ⇒ last_sync kept; the result is unchanged under any
modification of the oracle outside the file events. -/
theorem c6_last_sync_gated_by_file_events :
    ∀ (excl exclUser mignore ok ok2 : FsEvent → Bool) (events : List FsEvent)
      (localCursor lastSync : Rat),
      ((∀ e ∈ uploadFileEventsOf excl exclUser mignore events, ok e = true) →
        apply_local_changes excl exclUser mignore ok events localCursor lastSync
          = localCursor)
      ∧ ((∃ e ∈ uploadFileEventsOf excl exclUser mignore events, ok e = false) →
        apply_local_changes excl exclUser mignore ok events localCursor lastSync
          = lastSync)
      ∧ ((∀ e ∈ uploadFileEventsOf excl exclUser mignore events, ok e = ok2 e) →
        apply_local_changes excl exclUser mignore ok events localCursor lastSync
          = apply_local_changes excl exclUser mignore ok2 events localCursor lastSync) := by
  intro excl exclUser mignore ok ok2 events localCursor lastSync
  refine ⟨?_, ?_, ?_⟩
  · intro h
    rw [apply_local_changes_eq_ite, if_pos ?_]
    refine List.all_eq_true.mpr ?_
    intro x hx
    obtain ⟨e, he, rfl⟩ := List.mem_map.mp hx
    simpa using h e he
  · rintro ⟨e, he, hfe⟩
    have hne : ¬ (((uploadFileEventsOf excl exclUser mignore events).map ok).all
        (· = true) = true) := by
      intro hall
      have h2 := List.all_eq_true.mp hall (ok e) (List.mem_map.mpr ⟨e, he, rfl⟩)
      rw [hfe] at h2
      simp at h2
    rw [apply_local_changes_eq_ite, if_neg hne]
  · intro h
    rw [apply_local_changes_eq_ite, apply_local_changes_eq_ite, List.map_congr_left h]

/-- Witness for C6: the theorem applied to a concrete one-file batch whose
upload succeeds — last_sync is advanced to the cursor. -/
theorem c6_last_sync_gated_by_file_events_witness :
    (∀ e ∈ uploadFileEventsOf noExclusion noExclusion noExclusion [fileCreatedEvt "/x"],
      (fun _ => true : FsEvent → Bool) e = true)
    ∧ apply_local_changes noExclusion noExclusion noExclusion (fun _ => true)
        [fileCreatedEvt "/x"] 2 1 = 2 :=
  ⟨by decide,
   (c6_last_sync_gated_by_file_events noExclusion noExclusion noExclusion
     (fun _ => true) (fun _ => true) [fileCreatedEvt "/x"] 2 1).1 (by decide)⟩

/-- C6 counterexample: a batch whose only event is a deleted event that
fails to apply — the claim requires last_sync to keep its previous value 1,
but the code advances it to the cursor 2 (`success` collects no deleted
results, so `all(success)` is vacuously true). -/
theorem c6_last_sync_advanced_despite_failure :
    failsOnDeleted (fileDeletedEvt "/x") = false
    ∧ apply_local_changes noExclusion noExclusion noExclusion failsOnDeleted
        [fileDeletedEvt "/x"] 2 1 = 2
    ∧ (2 : Rat) ≠ 1 := by
  decide

/-- C9 (confirmed): a raw observer event whose src_path, lowercased, equals
or lies beneath some entry of queue_downloading is dropped by
on_any_event — nothing reaches the canonical event queue for it. -/
theorem c9_downloading_events_dropped :
    ∀ (syncing startup : Bool) (queueDownloading renamedCache : List String)
      (fsCaseSensitive : Bool)
      (renameOracle : FsEvent → List String → FsEvent × List String) (event : FsEvent),
      (∃ p ∈ queueDownloading, lowerStr event.src = lowerStr p
        ∨ is_child (lowerStr event.src) (lowerStr p)) →
      (on_any_event syncing startup queueDownloading renamedCache fsCaseSensitive
        renameOracle event).1 = none := by
  rintro syncing startup queueDl cache fsCS oracle event ⟨p, hp, hcond⟩
  have hb : is_being_downloaded queueDl event.src = true := by
    unfold is_being_downloaded
    refine List.any_eq_true.mpr ⟨p, hp, ?_⟩
    rcases hcond with h | h
    · simp [h]
    · simp [h]
  unfold on_any_event
  by_cases hgate : ¬ (syncing = true ∨ startup = true)
  · rw [if_pos hgate]
  · rw [if_neg hgate, if_pos hb]

/-- Witness for C9: the theorem applied to a concrete event under a path
present in queue_downloading (matched case-insensitively): the handler
enqueues nothing. -/
theorem c9_downloading_events_dropped_witness :
    (∃ p ∈ ["/DL/File"], lowerStr (fileCreatedEvt "/dl/file/sub").src = lowerStr p
      ∨ is_child (lowerStr (fileCreatedEvt "/dl/file/sub").src) (lowerStr p))
    ∧ (on_any_event true false ["/DL/File"] [] false (fun e c => (e, c))
        (fileCreatedEvt "/dl/file/sub")).1 = none :=
  ⟨⟨"/DL/File", by decide, Or.inr (by decide)⟩,
   c9_downloading_events_dropped true false ["/DL/File"] [] false (fun e c => (e, c))
     (fileCreatedEvt "/dl/file/sub") ⟨"/DL/File", by decide, Or.inr (by decide)⟩⟩
